import Mathlib

/-!
Verification of the hierarchical PDF-summarization pipeline (src/index.mjs).

The source is a single JavaScript module.  Strings are modelled as `List Char`
(every character in play is a single UTF-16 code unit, so JS `.length`,
`.indexOf`, `.slice` agree with list length / scanning / take-drop).  The
external Bedrock inference client is modelled as a function from the prompt
and the per-call retry counter to a result; a failed call carries the JS
error's `message` string.  The S3 artifact sink is modelled as a function
from key and body to a result.  `setTimeout` waits are recorded as traces.
-/

abbrev Str := List Char

/-- JS `text.indexOf(ch, start)` scanning part: scan `s`, reporting the index
of the first occurrence of `c`, where the head of `s` has index `i`. -/
def indexOfAux (c : Char) : List Char → Nat → Option Nat
  | [], _ => none
  | a :: as, i => if a = c then some i else indexOfAux c as (i + 1)

/-- JS `text.indexOf(ch, start)`: first index `≥ start` holding `c`
(`none` models JS `-1`).  A negative JS start is clamped to 0, which the
`Nat` subtraction at the call site already performs. -/
def indexOfFrom (text : Str) (c : Char) (start : Nat) : Option Nat :=
  indexOfAux c (text.drop start) start

/-- JS `text.slice(start, end)` for non-negative arguments. -/
def sliceJS (text : Str) (s e : Nat) : Str :=
  (text.take e).drop s

/-- The boundary chosen for the chunk starting at cursor `s`
(src/index.mjs lines 20-28): the naive boundary is `s + chunkSize`; when it
falls before the end of the text, `indexOf('.', endIndex - 100)` is consulted
and its result accepted whenever `nextPeriod - endIndex < 100` (JS signed
subtraction; `Nat` truncated subtraction yields the same comparison outcome). -/
def chunkEnd (text : Str) (chunkSize s : Nat) : Nat :=
  if s + chunkSize < text.length then
    match indexOfFrom text '.' (s + chunkSize - 100) with
    | some nextPeriod =>
      if nextPeriod - (s + chunkSize) < 100 then nextPeriod + 1 else s + chunkSize
    | none => s + chunkSize
  else s + chunkSize

/-- The `while (startIndex < text.length)` loop of `splitTextIntoChunks`,
with explicit fuel: `splitFuel text c f s` runs at most `f` iterations and
returns `none` iff the loop has not finished within `f` iterations.  With
fuel `text.length + 1` this is exactly the JS function: a terminating run
advances the cursor on every iteration (a non-advancing iteration repeats a
cursor state forever), so needs at most `text.length + 1` iterations. -/
def splitFuel (text : Str) (c : Nat) : Nat → Nat → Option (List Str)
  | fuel, s =>
    if s < text.length then
      match fuel with
      | 0 => none
      | f + 1 =>
        match splitFuel text c f (chunkEnd text c s) with
        | some rest => some (sliceJS text s (chunkEnd text c s) :: rest)
        | none => none
    else some []

/-- `splitTextIntoChunks(text, chunkSize)` (src/index.mjs lines 15-35).
`none` models a non-terminating run of the JS loop. -/
def splitTextIntoChunks (text : Str) (chunkSize : Nat) : Option (List Str) :=
  splitFuel text chunkSize (text.length + 1) 0

/-- Concatenation of all chunks, for the coverage property. -/
def joinAll : List Str → Str
  | [] => []
  | x :: xs => x ++ joinAll xs

/-- JS `Array.prototype.join(sep)`. -/
def joinSep (sep : Str) : List Str → Str
  | [] => []
  | [x] => x
  | x :: y :: xs => x ++ sep ++ joinSep sep (y :: xs)

/-- `a` begins with `b` (helper for substring search). -/
def leadsWith : List Char → List Char → Bool
  | _, [] => true
  | [], _ :: _ => false
  | a :: as, b :: bs => a = b && leadsWith as bs

/-- First index at which `pat` occurs in `hay` (`none` if it does not). -/
def findSub (hay pat : Str) : Option Nat :=
  (List.range (hay.length + 1)).find? (fun i => leadsWith (hay.drop i) pat)

/-- JS `hay.includes(pat)`. -/
def containsSub (hay pat : Str) : Bool :=
  (findSub hay pat).isSome

/-- JS `hay.replace(pat, rep)` with a string pattern: replaces the first
occurrence only. -/
def replaceFirst (hay pat rep : Str) : Str :=
  match findSub hay pat with
  | none => hay
  | some i => hay.take i ++ rep ++ hay.drop (i + pat.length)

/-- The error-message marker classifying a failure as throttled
(src/index.mjs line 75: `error.message.includes('Too many requests')`). -/
def tooManyMsg : Str := "Too many requests".toList

/-- Pieces of the per-chunk prompt template (src/index.mjs lines 50-61). -/
def chunkPromptA : Str :=
  "Sen bir kitap özeti çıkaran asistansın. Bu metin kitabın ".toList

def chunkPromptB : Str := " parçasından ".toList

def chunkPromptC : Str :=
  (". parçası. \n                        Lütfen bu bölümün özetini Türkçe olarak hazırla.\n\n                        Özette şunlara dikkat et:\n                        - Bu bölümdeki ana temalar ve konular\n                        - Önemli olaylar ve argümanlar\n                        - Anahtar fikirler ve kavramlar\n\n                        Metin:\n                        ").toList

def chunkPromptD : Str :=
  ("\n\n                        Not: Bu bir ara özet olduğu için, diğer bölümlerle bağlantı kurmaya çalışma, sadece bu bölümdeki bilgilere odaklan.").toList

/-- The interpolated per-chunk prompt: the template receives `totalChunks`
and `chunkIndex + 1` (JS template literal, src/index.mjs line 50). -/
def buildChunkPrompt (text : Str) (chunkIndex totalChunks : Nat) : Str :=
  chunkPromptA ++ (Nat.repr totalChunks).toList ++ chunkPromptB ++
    (Nat.repr (chunkIndex + 1)).toList ++ chunkPromptC ++ text ++ chunkPromptD

/-- Pieces of the final-summary prompt template (src/index.mjs lines 96-106). -/
def finalPromptA : Str :=
  ("Sen bir kitap özeti çıkaran asistansın. Aşağıda kitabın farklı bölümlerinin özetleri var. \n                    Bu özetleri kullanarak kitabın genel bir özetini Türkçe olarak hazırla.\n\n                    Bölüm özetleri:\n                    ").toList

/-- Separator used between chunk summaries inside the final prompt
(src/index.mjs line 100). -/
def summarySep : Str := "\n\n--- Yeni Bölüm ---\n\n".toList

def finalPromptB : Str :=
  ("\n\n                    Lütfen:\n                    1. Kitabın genel bir özetini çıkar\n                    2. Ana temaları ve konuları belirt\n                    3. Önemli argümanları ve mesajları özetle\n                    4. Varsa yazarın temel görüşlerini ve sonuçları belirt").toList

def buildFinalPrompt (summaries : List Str) : Str :=
  finalPromptA ++ joinSep summarySep summaries ++ finalPromptB

/-- Delimiter between segment summaries in the detailed artifact
(src/index.mjs line 180). -/
def sectionDelim : Str := "\n\n=== YENİ BÖLÜM ===\n\n".toList

/-- The external inference service: a prompt and the retry counter of the
invoking attempt determine the generated text or the failure message. -/
abbrev Client := Str → Nat → Except Str Str

/-- Observable outcome of one summarization: the returned text or thrown
error, the `wait(...)` delays performed (in ms, in order), and the retry
counters at which the client was invoked (one entry per attempt). -/
structure SummarizeTrace where
  result : Except Str Str
  waits : List Nat
  calls : List Nat

/-- Recursion core of `generateSummaryForChunk` (src/index.mjs lines 38-82).
The `fuel` argument only makes the recursion structural; the wrapper passes
`3 - retryCount`, and the JS guard `retryCount < 3` keeps the fuel positive
on every recursive call, so the fuel-exhaustion arm is unreachable. -/
def genSumAux (client : Client) (text : Str) (chunkIndex totalChunks : Nat) :
    Nat → Nat → SummarizeTrace
  | retryCount, fuel =>
    match client (buildChunkPrompt text chunkIndex totalChunks) retryCount with
    | Except.ok t => ⟨Except.ok t, [], [retryCount]⟩
    | Except.error e =>
      if containsSub e tooManyMsg = true ∧ retryCount < 3 then
        match fuel with
        | 0 => ⟨Except.error e, [], [retryCount]⟩
        | f + 1 =>
          let r := genSumAux client text chunkIndex totalChunks (retryCount + 1) f
          ⟨r.result, 5000 * (retryCount + 1) :: r.waits, retryCount :: r.calls⟩
      else ⟨Except.error e, [], [retryCount]⟩

/-- `generateSummaryForChunk(text, chunkIndex, totalChunks, retryCount)`
(src/index.mjs lines 38-82): one attempt; on an error whose message contains
`'Too many requests'` and `retryCount < 3`, waits `5000 * (retryCount + 1)` ms
and retries with `retryCount + 1`; otherwise rethrows the error unchanged. -/
def generateSummaryForChunk (client : Client) (text : Str)
    (chunkIndex totalChunks retryCount : Nat) : SummarizeTrace :=
  genSumAux client text chunkIndex totalChunks retryCount (3 - retryCount)

/-- `generateFinalSummary(summaries)` (src/index.mjs lines 85-119): a single
client invocation with the reduce prompt; no catch, no retry, no waits. -/
def generateFinalSummary (client : Client) (summaries : List Str) : SummarizeTrace :=
  ⟨client (buildFinalPrompt summaries) 0, [], [0]⟩

/-- Observable outcome of `processChunksSequentially`: the ordered summaries
or the first thrown error, the chunk indices for which a summarization was
started, and the 3000 ms pacing delays performed. -/
structure OrchTrace where
  result : Except Str (List Str)
  attempted : List Nat
  pacing : List Nat

/-- Loop body of `processChunksSequentially` (src/index.mjs lines 122-138),
structurally over the remaining chunks; `i` is the loop counter and `total`
the fixed `chunks.length`. -/
def processAux (client : Client) (total : Nat) : List Str → Nat → OrchTrace
  | [], _ => ⟨Except.ok [], [], []⟩
  | chunk :: rest, i =>
    match (generateSummaryForChunk client chunk i total 0).result with
    | Except.error e => ⟨Except.error e, [i], []⟩
    | Except.ok s =>
      ⟨(processAux client total rest (i + 1)).result.map (fun l => s :: l),
       i :: (processAux client total rest (i + 1)).attempted,
       (if i < total - 1 then [3000] else []) ++ (processAux client total rest (i + 1)).pacing⟩

/-- `processChunksSequentially(chunks)` (src/index.mjs lines 122-138). -/
def processChunksSequentially (client : Client) (chunks : List Str) : OrchTrace :=
  processAux client chunks.length chunks 0

/-- Observable outcome of the Lambda `handler`: the HTTP-style status code,
the failure body fields (`error`, `details`) when status 500, the success
body keys when status 200, and the artifacts actually stored (key, body). -/
structure HandlerRes where
  statusCode : Nat
  errBody : Option (Str × Str)
  okBody : Option (Str × Str)
  written : List (Str × Str)

/-- Fixed `error` field of a failure response (src/index.mjs line 201). -/
def failedMsgStr : Str := "Failed to process PDF".toList

/-- `key.replace('pdfs/', 'summaries/').replace('.pdf', '.txt')`
(src/index.mjs line 170). -/
def summaryKeyOf (key : Str) : Str :=
  replaceFirst (replaceFirst key ("pdfs/".toList) ("summaries/".toList))
    (".pdf".toList) (".txt".toList)

/-- `key.replace('pdfs/', 'summaries/detailed_').replace('.pdf', '.txt')`
(src/index.mjs line 179). -/
def detailedKeyOf (key : Str) : Str :=
  replaceFirst (replaceFirst key ("pdfs/".toList) ("summaries/detailed_".toList))
    (".pdf".toList) (".txt".toList)

/-- The Lambda `handler` (src/index.mjs lines 140-206).  The S3 fetch and
pdf-parse of the source document are external collaborators, summarized by
the `extract` argument (the extracted text, or the thrown error).  `sink`
models `PutObjectCommand`.  The try/catch turns the first thrown error into
a 500 response with body `{error: 'Failed to process PDF', details:
error.message}`.  The overall `none` is unreachable for real runs: it marks
divergence of the chunking loop, which cannot happen at chunk size 80000. -/
def handler (extract : Except Str Str) (client : Client)
    (sink : Str → Str → Except Str Unit) (key : Str) : Option HandlerRes :=
  match extract with
  | Except.error m => some ⟨500, some (failedMsgStr, m), none, []⟩
  | Except.ok fullText =>
    match splitTextIntoChunks fullText 80000 with
    | none => none
    | some chunks =>
      match (processChunksSequentially client chunks).result with
      | Except.error m => some ⟨500, some (failedMsgStr, m), none, []⟩
      | Except.ok chunkSummaries =>
        match (generateFinalSummary client chunkSummaries).result with
        | Except.error m => some ⟨500, some (failedMsgStr, m), none, []⟩
        | Except.ok finalSummary =>
          match sink (summaryKeyOf key) finalSummary with
          | Except.error m => some ⟨500, some (failedMsgStr, m), none, []⟩
          | Except.ok _ =>
            match sink (detailedKeyOf key) (joinSep sectionDelim chunkSummaries) with
            | Except.error m =>
              some ⟨500, some (failedMsgStr, m), none, [(summaryKeyOf key, finalSummary)]⟩
            | Except.ok _ =>
              some ⟨200, none, some (summaryKeyOf key, detailedKeyOf key),
                [(summaryKeyOf key, finalSummary),
                 (detailedKeyOf key, joinSep sectionDelim chunkSummaries)]⟩

/-! ## Basic facts about the scanning and slicing primitives -/

theorem indexOfAux_sound {c : Char} (l : List Char) :
    ∀ (i p : Nat), indexOfAux c l i = some p → i ≤ p ∧ l[p - i]? = some c := by
  induction l with
  | nil => intro i p h; simp [indexOfAux] at h
  | cons a as ih =>
    intro i p h
    simp only [indexOfAux] at h
    by_cases hac : a = c
    · rw [if_pos hac] at h
      obtain rfl : i = p := Option.some.inj h
      exact ⟨Nat.le_refl _, by simp [hac]⟩
    · rw [if_neg hac] at h
      obtain ⟨h1, h2⟩ := ih (i + 1) p h
      refine ⟨Nat.le_of_succ_le h1, ?_⟩
      have hpi : p - i = (p - (i + 1)) + 1 := by omega
      rw [hpi, List.getElem?_cons_succ]
      exact h2

theorem indexOfFrom_sound {text : Str} {c : Char} {start p : Nat}
    (h : indexOfFrom text c start = some p) : start ≤ p ∧ text[p]? = some c := by
  obtain ⟨h1, h2⟩ := indexOfAux_sound (text.drop start) start p h
  refine ⟨h1, ?_⟩
  rw [List.getElem?_drop] at h2
  rwa [Nat.add_sub_cancel' h1] at h2

theorem chunkEnd_le_naive_add_100 (text : Str) (c s : Nat) :
    chunkEnd text c s ≤ s + c + 100 := by
  unfold chunkEnd
  split
  · split
    · split <;> omega
    · omega
  · omega

theorem chunkEnd_advance {text : Str} {c s : Nat} (hc : 100 ≤ c)
    (_hs : s < text.length) : s < chunkEnd text c s := by
  unfold chunkEnd
  split
  · split
    · rename_i p heq
      split
      · have := (indexOfFrom_sound heq).1
        omega
      · omega
    · omega
  · omega

theorem chunkEnd_no_period (text : Str) (c s : Nat)
    (h1 : s + c < text.length)
    (hwin : ∀ p, p < s + c + 100 → s + c - 100 ≤ p → text[p]? ≠ some '.') :
    chunkEnd text c s = s + c := by
  unfold chunkEnd
  rw [if_pos h1]
  split
  · rename_i p heq
    obtain ⟨hp1, hp2⟩ := indexOfFrom_sound heq
    have hge : s + c + 100 ≤ p := by
      by_contra hlt
      exact hwin p (by omega) hp1 hp2
    rw [if_neg (by omega)]
  · rfl

theorem sliceJS_join {text : Str} {s e : Nat} (hse : s ≤ e) :
    sliceJS text s e ++ text.drop e = text.drop s := by
  unfold sliceJS
  conv_rhs => rw [← List.take_append_drop e text]
  rw [List.drop_append_eq_append_drop]
  congr 1
  rw [List.length_take]
  by_cases hs : s ≤ min e text.length
  · rw [Nat.sub_eq_zero_of_le hs, List.drop_zero]
  · have hlen : text.length ≤ e := by omega
    simp [List.drop_eq_nil_of_le hlen]

theorem sliceJS_ne_nil {text : Str} {s e : Nat} (hse : s < e) (hs : s < text.length) :
    sliceJS text s e ≠ [] := by
  have hlen : (sliceJS text s e).length = min e text.length - s := by
    unfold sliceJS
    rw [List.length_drop, List.length_take]
  intro hnil
  rw [hnil] at hlen
  simp only [List.length_nil] at hlen
  omega

/-! ## Termination and coverage of the chunking loop -/

theorem splitFuel_exists (text : Str) {c : Nat} (hc : 100 ≤ c) :
    ∀ (f s : Nat), text.length ≤ s + f →
      ∃ cs, splitFuel text c f s = some cs ∧ joinAll cs = text.drop s ∧
        ∀ ch ∈ cs, ch ≠ [] := by
  intro f
  induction f with
  | zero =>
    intro s hsf
    refine ⟨[], ?_, ?_, by simp⟩
    · rw [splitFuel, if_neg (by omega)]
    · simp [joinAll, List.drop_eq_nil_of_le (by omega : text.length ≤ s)]
  | succ f ih =>
    intro s hsf
    by_cases hs : s < text.length
    · have hadv := chunkEnd_advance hc hs
      obtain ⟨rest, hr, hj, hne⟩ := ih (chunkEnd text c s) (by omega)
      refine ⟨sliceJS text s (chunkEnd text c s) :: rest, ?_, ?_, ?_⟩
      · rw [splitFuel, if_pos hs]
        simp only [hr]
      · simp only [joinAll]
        rw [hj, sliceJS_join (Nat.le_of_lt hadv)]
      · intro ch hch
        rw [List.mem_cons] at hch
        rcases hch with rfl | hch
        · exact sliceJS_ne_nil hadv hs
        · exact hne ch hch
    · refine ⟨[], ?_, ?_, by simp⟩
      · rw [splitFuel, if_neg hs]
      · simp [joinAll, List.drop_eq_nil_of_le (by omega : text.length ≤ s)]

theorem splitTextIntoChunks_exists (text : Str) {c : Nat} (hc : 100 ≤ c) :
    ∃ cs, splitTextIntoChunks text c = some cs ∧ joinAll cs = text ∧
      ∀ ch ∈ cs, ch ≠ [] := by
  obtain ⟨cs, h1, h2, h3⟩ := splitFuel_exists text hc (text.length + 1) 0 (by omega)
  exact ⟨cs, h1, by rwa [List.drop_zero] at h2, h3⟩

/-! ## Concrete texts used by counterexamples and witnesses -/

/-- 12 characters, a period at index 0 only.  With chunk size 10 the JS loop
reaches cursor 1 and then repeatedly recomputes boundary 1 (the lookback
window `endIndex - 100` clamps to 0 and finds the period at index 0), so the
loop never advances again: it pushes an empty chunk forever. -/
def dotFirstText : Str := ".aaaaaaaaaaa".toList

/-- 250 characters whose only period sits at index 210: 10 characters past
the naive boundary 200 of the first chunk (chunk size 200), with no period
anywhere in the lookback window [100, 200). -/
def lateDotText : Str := List.replicate 210 'a' ++ '.' :: List.replicate 39 'a'

/-- 250 characters with no period at all. -/
def noDotText : Str := List.replicate 250 'a'

/-- C1 (counterexample): the claim quantifies over every chunk size, but at
chunk size 10 on `dotFirstText` the chunking loop stops advancing its cursor
and never returns (the embedding yields `none` for every fuel; in JS the loop
runs forever), so no chunk list with the claimed properties is returned. -/
theorem c1_counterexample :
    ¬ ∃ cs, splitTextIntoChunks dotFirstText 10 = some cs ∧
      joinAll cs = dotFirstText ∧ (∀ ch ∈ cs, ch ≠ []) ∧
      cs.enum.map Prod.fst = List.range cs.length := by
  rintro ⟨cs, hcs, -⟩
  rw [show splitTextIntoChunks dotFirstText 10 = none from by decide] at hcs
  exact Option.noConfusion hcs

/-- C1 (corrected): for every input text and every chunk size of at least
100, `splitTextIntoChunks` returns segments whose concatenation in index
order is exactly the input, every segment is non-empty, and the segment
indices (array positions) are exactly 0..n-1. -/
theorem c1_chunk_coverage (text : Str) (c : Nat) (hc : 100 ≤ c) :
    ∃ cs, splitTextIntoChunks text c = some cs ∧ joinAll cs = text ∧
      (∀ ch ∈ cs, ch ≠ []) ∧ cs.enum.map Prod.fst = List.range cs.length := by
  obtain ⟨cs, h1, h2, h3⟩ := splitTextIntoChunks_exists text hc
  exact ⟨cs, h1, h2, h3, List.enum_map_fst cs⟩

/-- C1 (witness): coverage at a concrete text and chunk size 100. -/
theorem c1_chunk_coverage_witness :
    ∃ cs, splitTextIntoChunks ("hello. world".toList) 100 = some cs ∧
      joinAll cs = "hello. world".toList ∧ (∀ ch ∈ cs, ch ≠ []) ∧
      cs.enum.map Prod.fst = List.range cs.length :=
  c1_chunk_coverage ("hello. world".toList) 100 (by norm_num)

set_option maxRecDepth 100000 in
/-- C2 (counterexample): on `lateDotText` with chunk size 200 and cursor 0
there is no period in the 100-character window before the naive boundary 200,
yet the chunker does not cut at 200: `indexOf('.', endIndex - 100)` scans
forward and accepts the period at 210, cutting at 211 — past the naive
boundary. -/
theorem c2_counterexample :
    (∀ p, p < 200 → 100 ≤ p → lateDotText[p]? ≠ some ('.' : Char)) ∧
    0 + 200 < lateDotText.length ∧
    chunkEnd lateDotText 200 0 ≠ 0 + 200 ∧
    0 + 200 < chunkEnd lateDotText 200 0 := by
  refine ⟨by decide, by decide, by decide, by decide⟩

/-- C2 (corrected): the guarantee holds for the symmetric 200-character
window: if no period occurs at any position in
`[naive - 100, naive + 100)` (naive boundary strictly inside the text), the
chunker cuts exactly at the naive boundary; and the chosen boundary never
exceeds `naive + 100`. -/
theorem c2_no_terminator_fallback :
    (∀ (text : Str) (c s : Nat), s + c < text.length →
      (∀ p, p < s + c + 100 → s + c - 100 ≤ p → text[p]? ≠ some '.') →
      chunkEnd text c s = s + c) ∧
    (∀ (text : Str) (c s : Nat), chunkEnd text c s ≤ s + c + 100) :=
  ⟨chunkEnd_no_period, chunkEnd_le_naive_add_100⟩

set_option maxRecDepth 100000 in
/-- C2 (witness): on a 250-character text with no period, chunk size 200,
cursor 0, the cut is exactly at the naive boundary 200, and the bound
`boundary ≤ naive + 100` holds there. -/
theorem c2_no_terminator_fallback_witness :
    chunkEnd noDotText 200 0 = 0 + 200 ∧ chunkEnd noDotText 200 0 ≤ 0 + 200 + 100 :=
  ⟨c2_no_terminator_fallback.1 noDotText 200 0 (by decide) (by decide),
   c2_no_terminator_fallback.2 noDotText 200 0⟩

/-- C10 (confirmed): for chunk sizes of at least 101 every loop iteration
strictly advances the cursor, so the chunker terminates with all chunks
non-empty; and for a chunk size of at most 100 the terminator search window
can start at or before the cursor and select a boundary not beyond it
(witnessed at chunk size 10 on `dotFirstText`, cursor 1). -/
theorem c10_cursor_advance :
    (∀ (text : Str) (c s : Nat), 101 ≤ c → s < text.length →
      s < chunkEnd text c s) ∧
    (∀ (text : Str) (c : Nat), 101 ≤ c →
      ∃ cs, splitTextIntoChunks text c = some cs ∧ ∀ ch ∈ cs, ch ≠ []) ∧
    (∃ (text : Str) (c s : Nat), c ≤ 100 ∧ s < text.length ∧
      chunkEnd text c s ≤ s) := by
  refine ⟨?_, ?_, ⟨dotFirstText, 10, 1, by decide, by decide, by decide⟩⟩
  · intro text c s hc hs
    exact chunkEnd_advance (by omega) hs
  · intro text c hc
    obtain ⟨cs, h1, -, h3⟩ := splitTextIntoChunks_exists text (by omega : 100 ≤ c)
    exact ⟨cs, h1, h3⟩

set_option maxRecDepth 100000 in
/-- C10 (witness): advance and termination at chunk size 101 on a concrete
250-character text. -/
theorem c10_cursor_advance_witness :
    0 < chunkEnd noDotText 101 0 ∧
    (∃ cs, splitTextIntoChunks noDotText 101 = some cs ∧ ∀ ch ∈ cs, ch ≠ []) :=
  ⟨c10_cursor_advance.1 noDotText 101 0 (by norm_num) (by decide),
   c10_cursor_advance.2.1 noDotText 101 (by norm_num)⟩

/-! ## Single-step behavior of the retrying summarizer -/

theorem genSum_ok {client : Client} {text : Str} {ci tot rc : Nat} {t : Str}
    (h : client (buildChunkPrompt text ci tot) rc = Except.ok t) :
    generateSummaryForChunk client text ci tot rc = ⟨Except.ok t, [], [rc]⟩ := by
  unfold generateSummaryForChunk
  rw [genSumAux, h]

theorem genSum_noRetry {client : Client} {text : Str} {ci tot rc : Nat} {m : Str}
    (h : client (buildChunkPrompt text ci tot) rc = Except.error m)
    (hng : ¬(containsSub m tooManyMsg = true ∧ rc < 3)) :
    generateSummaryForChunk client text ci tot rc = ⟨Except.error m, [], [rc]⟩ := by
  unfold generateSummaryForChunk
  rw [genSumAux, h]
  dsimp only
  rw [if_neg hng]

theorem genSum_retryStep {client : Client} {text : Str} {ci tot rc : Nat} {m : Str}
    (h : client (buildChunkPrompt text ci tot) rc = Except.error m)
    (hct : containsSub m tooManyMsg = true) (hrc : rc < 3) :
    generateSummaryForChunk client text ci tot rc =
      ⟨(generateSummaryForChunk client text ci tot (rc + 1)).result,
       5000 * (rc + 1) :: (generateSummaryForChunk client text ci tot (rc + 1)).waits,
       rc :: (generateSummaryForChunk client text ci tot (rc + 1)).calls⟩ := by
  unfold generateSummaryForChunk
  have hf : 3 - rc = (3 - (rc + 1)) + 1 := by omega
  rw [hf, genSumAux, h]
  dsimp only
  rw [if_pos ⟨hct, hrc⟩]

/-- C4 (confirmed): fed a client that fails every attempt with a rate-limit
message, `generateSummaryForChunk` fails after exactly 4 attempts (retry
counters 0,1,2,3: 1 initial + 3 retries) with waits of exactly 5000, 10000
and 15000 ms before the three retries, and propagates that same error. -/
theorem c4_retry_exhaustion (client : Client) (m : Str)
    (hcl : ∀ p n, client p n = Except.error m)
    (hct : containsSub m tooManyMsg = true) (text : Str) (ci tot : Nat) :
    generateSummaryForChunk client text ci tot 0 =
      ⟨Except.error m, [5000, 10000, 15000], [0, 1, 2, 3]⟩ := by
  have h3 : generateSummaryForChunk client text ci tot 3 = ⟨Except.error m, [], [3]⟩ :=
    genSum_noRetry (hcl _ 3) (by rintro ⟨-, h33⟩; omega)
  have h2 : generateSummaryForChunk client text ci tot 2 =
      ⟨Except.error m, [15000], [2, 3]⟩ := by
    rw [genSum_retryStep (hcl _ 2) hct (by omega), h3]
  have h1 : generateSummaryForChunk client text ci tot 1 =
      ⟨Except.error m, [10000, 15000], [1, 2, 3]⟩ := by
    rw [genSum_retryStep (hcl _ 1) hct (by omega), h2]
  rw [genSum_retryStep (hcl _ 0) hct (by omega), h1]

/-- The always-throttled client: every call fails with the rate-limit
message the source tests for. -/
def throttledClient : Client := fun _ _ => Except.error tooManyMsg

/-- C4 (witness): the retry exhaustion trace at a concrete text. -/
theorem c4_retry_exhaustion_witness :
    generateSummaryForChunk throttledClient ("t".toList) 0 1 0 =
      ⟨Except.error tooManyMsg, [5000, 10000, 15000], [0, 1, 2, 3]⟩ :=
  c4_retry_exhaustion throttledClient tooManyMsg (fun _ _ => rfl) (by decide)
    ("t".toList) 0 1

/-- C8 (confirmed): if the first attempt fails with an error whose message is
not classified as throttled, `generateSummaryForChunk` fails immediately:
one attempt (retry counter 0 only), no waits, and the error is propagated
with its message unchanged. -/
theorem c8_fatal_short_circuit (client : Client) (text : Str) (ci tot : Nat)
    (m : Str) (h : client (buildChunkPrompt text ci tot) 0 = Except.error m)
    (hct : containsSub m tooManyMsg = false) :
    generateSummaryForChunk client text ci tot 0 = ⟨Except.error m, [], [0]⟩ :=
  genSum_noRetry h (by rintro ⟨hc, -⟩; rw [hct] at hc; exact Bool.noConfusion hc)

/-- A client that always fails with a non-throttle message. -/
def fatalClient : Client := fun _ _ => Except.error ("boom".toList)

/-- C8 (witness): immediate failure at a concrete text and client. -/
theorem c8_fatal_short_circuit_witness :
    generateSummaryForChunk fatalClient ("t".toList) 0 1 0 =
      ⟨Except.error ("boom".toList), [], [0]⟩ :=
  c8_fatal_short_circuit fatalClient ("t".toList) 0 1 ("boom".toList) rfl (by decide)

/-- C3 (counterexample): fed the always-throttled client,
`generateFinalSummary` does not retry with the per-segment backoff schedule:
it performs no waits and a single attempt, instead of the claimed
5000/10000/15000 ms schedule over 4 attempts. -/
theorem c3_counterexample :
    ¬ ((generateFinalSummary throttledClient [("s".toList)]).waits =
        [5000, 10000, 15000] ∧
       (generateFinalSummary throttledClient [("s".toList)]).calls = [0, 1, 2, 3]) := by
  rintro ⟨hw, -⟩
  exact List.noConfusion hw

/-- C3 (corrected): `generateFinalSummary` has no retry/classification logic
at all: it is a single client invocation with no waits, and any failure —
throttled or fatal — propagates unchanged to the caller. -/
theorem c3_final_summary_single_attempt (client : Client) (summaries : List Str) :
    generateFinalSummary client summaries =
      ⟨client (buildFinalPrompt summaries) 0, [], [0]⟩ ∧
    (∀ m, client (buildFinalPrompt summaries) 0 = Except.error m →
      (generateFinalSummary client summaries).result = Except.error m) :=
  ⟨rfl, fun m h => by simp [generateFinalSummary, h]⟩

/-- C3 (witness): a throttled failure of the reduce call propagates after a
single attempt with no waits. -/
theorem c3_final_summary_single_attempt_witness :
    (generateFinalSummary throttledClient [("s".toList)]).result =
      Except.error tooManyMsg :=
  (c3_final_summary_single_attempt throttledClient [("s".toList)]).2 tooManyMsg rfl

/-! ## Abort propagation in the sequential orchestrator -/

theorem processAux_cons_err {client : Client} {total : Nat} {chunk : Str}
    {rest : List Str} {i : Nat} {m : Str}
    (h : (generateSummaryForChunk client chunk i total 0).result = Except.error m) :
    processAux client total (chunk :: rest) i = ⟨Except.error m, [i], []⟩ := by
  simp only [processAux]
  rw [h]

theorem processAux_cons_ok {client : Client} {total : Nat} {chunk : Str}
    {rest : List Str} {i : Nat} {s : Str}
    (h : (generateSummaryForChunk client chunk i total 0).result = Except.ok s) :
    processAux client total (chunk :: rest) i =
      ⟨(processAux client total rest (i + 1)).result.map (fun l => s :: l),
       i :: (processAux client total rest (i + 1)).attempted,
       (if i < total - 1 then [3000] else []) ++
         (processAux client total rest (i + 1)).pacing⟩ := by
  simp only [processAux]
  rw [h]

theorem processAux_error (client : Client) (total : Nat) :
    ∀ (l : List Str) (b k : Nat) (hk : k < l.length) (m : Str),
      (∀ j (hj : j < k), ∃ s,
        (generateSummaryForChunk client (l.get ⟨j, Nat.lt_trans hj hk⟩)
          (b + j) total 0).result = Except.ok s) →
      (generateSummaryForChunk client (l.get ⟨k, hk⟩) (b + k) total 0).result =
        Except.error m →
      (processAux client total l b).result = Except.error m ∧
      (processAux client total l b).attempted = List.range' b (k + 1) := by
  intro l
  induction l with
  | nil =>
    intro b k hk
    exact absurd hk (by simp)
  | cons ch rest ih =>
    intro b k hk m hok herr
    cases k with
    | zero =>
      have herr2 : (generateSummaryForChunk client ch b total 0).result =
          Except.error m := herr
      rw [processAux_cons_err herr2]
      exact ⟨rfl, by simp [List.range'_one]⟩
    | succ k' =>
      obtain ⟨s0, hs0⟩ := hok 0 (Nat.succ_pos k')
      have hs02 : (generateSummaryForChunk client ch b total 0).result =
          Except.ok s0 := hs0
      have hk' : k' < rest.length := by
        simpa using Nat.lt_of_succ_lt_succ hk
      have hok' : ∀ j (hj : j < k'), ∃ s,
          (generateSummaryForChunk client (rest.get ⟨j, Nat.lt_trans hj hk'⟩)
            ((b + 1) + j) total 0).result = Except.ok s := by
        intro j hj
        obtain ⟨s, hs⟩ := hok (j + 1) (Nat.succ_lt_succ hj)
        refine ⟨s, ?_⟩
        have hidx : b + (j + 1) = (b + 1) + j := by omega
        rw [hidx] at hs
        exact hs
      have herr' :
          (generateSummaryForChunk client (rest.get ⟨k', hk'⟩)
            ((b + 1) + k') total 0).result = Except.error m := by
        have hidx : b + (k' + 1) = (b + 1) + k' := by omega
        rw [hidx] at herr
        exact herr
      obtain ⟨ihr, iha⟩ := ih (b + 1) k' hk' m hok' herr'
      rw [processAux_cons_ok hs02]
      refine ⟨?_, ?_⟩
      · dsimp only
        rw [ihr]
        rfl
      · dsimp only
        rw [iha]
        conv_rhs => rw [List.range'_succ]

/-- C6 (confirmed): if segment `i`'s summarization fails (fatal error or
retry exhaustion both surface as an error result), the orchestrator
propagates that failure: its result is the error (no partial result set),
exactly segments `0..i` were attempted, and no segment past `i` is ever
attempted. -/
theorem c6_abort_propagation (client : Client) (chunks : List Str) (i : Nat)
    (hi : i < chunks.length) (m : Str)
    (hok : ∀ j (hj : j < i), ∃ s,
      (generateSummaryForChunk client (chunks.get ⟨j, Nat.lt_trans hj hi⟩)
        j chunks.length 0).result = Except.ok s)
    (herr : (generateSummaryForChunk client (chunks.get ⟨i, hi⟩)
        i chunks.length 0).result = Except.error m) :
    (processChunksSequentially client chunks).result = Except.error m ∧
    (processChunksSequentially client chunks).attempted = List.range (i + 1) ∧
    ∀ j, i < j → j ∉ (processChunksSequentially client chunks).attempted := by
  simp only [processChunksSequentially]
  obtain ⟨h1, h2⟩ := processAux_error client chunks.length chunks 0 i hi m
    (fun j hj => by simpa [Nat.zero_add] using hok j hj)
    (by simpa [Nat.zero_add] using herr)
  have h2' : (processAux client chunks.length chunks 0).attempted =
      List.range (i + 1) := by
    rw [h2, List.range_eq_range']
  refine ⟨h1, h2', ?_⟩
  intro j hj hmem
  rw [h2', List.mem_range] at hmem
  omega

/-- Three tiny segments for the abort-propagation witness. -/
def abortChunks : List Str := ["a".toList, "b".toList, "c".toList]

/-- A client that fails fatally exactly on segment 1's prompt. -/
def abortClient : Client := fun p _ =>
  if p = buildChunkPrompt ("b".toList) 1 3 then Except.error ("boom".toList)
  else Except.ok ("ok".toList)

set_option maxRecDepth 100000 in
/-- C6 (witness): segment 1 fails fatally, the orchestrator returns that
error, only segments 0 and 1 were attempted, segment 2 never. -/
theorem c6_abort_propagation_witness :
    (processChunksSequentially abortClient abortChunks).result =
      Except.error ("boom".toList) ∧
    (processChunksSequentially abortClient abortChunks).attempted =
      List.range 2 ∧
    ∀ j, 1 < j → j ∉ (processChunksSequentially abortClient abortChunks).attempted := by
  have h := c6_abort_propagation abortClient abortChunks 1 (by decide)
    ("boom".toList) ?ok ?err
  · exact h
  case ok =>
    intro j hj
    refine ⟨"ok".toList, ?_⟩
    have hj0 : j = 0 := by omega
    subst hj0
    show (generateSummaryForChunk abortClient ("a".toList) 0 3 0).result =
      Except.ok ("ok".toList)
    have hcall : abortClient (buildChunkPrompt ("a".toList) 0 3) 0 =
        Except.ok ("ok".toList) := by
      unfold abortClient
      rw [if_neg (by decide)]
    rw [genSum_ok hcall]
  case err =>
    show (generateSummaryForChunk abortClient ("b".toList) 1 3 0).result =
      Except.error ("boom".toList)
    have hcall : abortClient (buildChunkPrompt ("b".toList) 1 3) 0 =
        Except.error ("boom".toList) := by
      unfold abortClient
      rw [if_pos rfl]
    rw [genSum_noRetry hcall (by rintro ⟨hc, -⟩; revert hc; decide)]

/-! ## Handler-level behavior -/

/-- A client that answers every prompt with the fixed text `X`. -/
def okClient : Client := fun _ _ => Except.ok ("X".toList)

/-- An artifact sink that accepts every put. -/
def okSink : Str → Str → Except Str Unit := fun _ _ => Except.ok ()

set_option maxRecDepth 100000 in
/-- C5 (counterexample): on an empty extracted text the handler does not
report a distinct empty-document condition: with every inference call
succeeding it returns statusCode 200 and writes both artifacts (the detailed
one empty), silently producing a summary of zero segments. -/
theorem c5_counterexample :
    (handler (Except.ok []) okClient okSink ("pdfs/b.pdf".toList)).map
        (fun r => r.statusCode) = some 200 ∧
    (handler (Except.ok []) okClient okSink ("pdfs/b.pdf".toList)).map
        (fun r => r.written.length) = some 2 :=
  ⟨by decide, by decide⟩

/-- C5 (corrected): the chunker does produce zero segments on empty text,
but the handler has no empty-document check: it proceeds through the
pipeline, issues the final-summary inference call over zero segment
summaries, returns 200 and writes both artifacts, the detailed summary
being the empty string. -/
theorem c5_empty_document :
    (∀ c, splitTextIntoChunks [] c = some []) ∧
    ∀ (client : Client) (key r : Str),
      client (buildFinalPrompt []) 0 = Except.ok r →
      handler (Except.ok []) client okSink key =
        some ⟨200, none, some (summaryKeyOf key, detailedKeyOf key),
          [(summaryKeyOf key, r), (detailedKeyOf key, [])]⟩ := by
  refine ⟨fun c => rfl, ?_⟩
  intro client key r hr
  simp only [handler]
  rw [show splitTextIntoChunks [] 80000 = some [] from rfl]
  dsimp only
  rw [show (processChunksSequentially client []).result = Except.ok [] from rfl]
  dsimp only
  rw [show (generateFinalSummary client []).result =
    client (buildFinalPrompt []) 0 from rfl, hr]
  dsimp only [okSink]
  rfl

/-- C5 (witness): zero segments at a concrete chunk size, and the concrete
run of the handler on an empty document. -/
theorem c5_empty_document_witness :
    splitTextIntoChunks [] 5 = some [] ∧
    handler (Except.ok []) okClient okSink ("pdfs/b.pdf".toList) =
      some ⟨200, none,
        some (summaryKeyOf ("pdfs/b.pdf".toList), detailedKeyOf ("pdfs/b.pdf".toList)),
        [(summaryKeyOf ("pdfs/b.pdf".toList), "X".toList),
         (detailedKeyOf ("pdfs/b.pdf".toList), [])]⟩ :=
  ⟨c5_empty_document.1 5,
   c5_empty_document.2 okClient ("pdfs/b.pdf".toList) ("X".toList) rfl⟩

/-- Key used by the partial-write counterexample. -/
def failKey : Str := "pdfs/doc.pdf".toList

/-- A sink that rejects exactly the detailed-summary artifact. -/
def failSecondSink : Str → Str → Except Str Unit := fun k _ =>
  if k = detailedKeyOf failKey then Except.error ("put failed".toList)
  else Except.ok ()

set_option maxRecDepth 100000 in
/-- C9 (counterexample): when the second put (the detailed artifact) fails,
the run fails with statusCode 500 but exactly one artifact — the
final-summary one — has already been written: a partial artifact set. -/
theorem c9_counterexample :
    (handler (Except.ok ("hello".toList)) okClient failSecondSink failKey).map
        (fun r => r.statusCode) = some 500 ∧
    (handler (Except.ok ("hello".toList)) okClient failSecondSink failKey).map
        (fun r => r.written.length) = some 1 :=
  ⟨by decide, by decide⟩

/-- C9 (corrected): provided the artifact sink itself never fails, the
handler writes either both artifacts (statusCode 200) or none (statusCode
500); every failure is reported as a 500 whose body carries the fixed
`'Failed to process PDF'` marker plus the underlying error message only —
no stage or segment-index context.  (With a fallible sink, a failure of the
second put leaves exactly the first artifact written.) -/
theorem c9_no_partial_artifacts (extract : Except Str Str) (client : Client)
    (key : Str) :
    ∃ res, handler extract client okSink key = some res ∧
      (res.written.length = 0 ∨ res.written.length = 2) ∧
      (res.statusCode = 200 ∨ (res.statusCode = 500 ∧ res.written = [] ∧
        ∃ m, res.errBody = some (failedMsgStr, m))) := by
  cases extract with
  | error m =>
    exact ⟨_, rfl, Or.inl rfl, Or.inr ⟨rfl, rfl, m, rfl⟩⟩
  | ok fullText =>
    obtain ⟨cs, hcs, -, -⟩ :=
      splitTextIntoChunks_exists fullText (by norm_num : (100 : Nat) ≤ 80000)
    simp only [handler]
    rw [hcs]
    dsimp only
    rcases hres : (processChunksSequentially client cs).result with m | ss
    · exact ⟨_, rfl, Or.inl rfl, Or.inr ⟨rfl, rfl, m, rfl⟩⟩
    · dsimp only
      rcases hfin : (generateFinalSummary client ss).result with m | fin
      · exact ⟨_, rfl, Or.inl rfl, Or.inr ⟨rfl, rfl, m, rfl⟩⟩
      · dsimp only [okSink]
        exact ⟨_, rfl, Or.inr rfl, Or.inl rfl⟩

/-! ## The end-to-end example document (80,150 characters) -/

/-- 80,150 characters: 80,070 letters, a period at offset 80,070, then 79
more letters.  The only period in the windows the chunker consults. -/
def c7text : Str := List.replicate 80070 'a' ++ '.' :: List.replicate 79 'a'

/-- Segment 0 of the example: the substring `[0, 80071)`. -/
def c7chunk0 : Str := sliceJS c7text 0 80071

/-- Segment 1 of the example: the substring `[80071, 80150)`. -/
def c7chunk1 : Str := sliceJS c7text 80071 80150

theorem c7text_length : c7text.length = 80150 := by
  unfold c7text
  rw [List.length_append, List.length_replicate, List.length_cons,
    List.length_replicate]

theorem indexOfAux_append_none {c : Char} (l₁ l₂ : List Char)
    (hno : ∀ x ∈ l₁, x ≠ c) :
    ∀ i, indexOfAux c (l₁ ++ l₂) i = indexOfAux c l₂ (i + l₁.length) := by
  induction l₁ with
  | nil => intro i; simp [indexOfAux]
  | cons a as ih =>
    intro i
    simp only [List.cons_append, indexOfAux, List.append_eq]
    rw [if_neg (hno a (by simp))]
    rw [ih (fun x hx => hno x (by simp [hx])) (i + 1)]
    congr 1
    simp only [List.length_cons]
    omega

theorem c7_drop79900 :
    c7text.drop 79900 = List.replicate 170 'a' ++ '.' :: List.replicate 79 'a' := by
  unfold c7text
  rw [List.drop_append_eq_append_drop, List.drop_replicate, List.length_replicate]
  norm_num

theorem indexOfAux_cons_self (c : Char) (l : List Char) (i : Nat) :
    indexOfAux c (c :: l) i = some i := by
  rw [indexOfAux, if_pos rfl]

theorem c7_indexOf : indexOfFrom c7text '.' 79900 = some 80070 := by
  unfold indexOfFrom
  rw [c7_drop79900]
  rw [indexOfAux_append_none _ _
    (fun x hx => by rw [List.eq_of_mem_replicate hx]; decide) 79900]
  rw [List.length_replicate]
  rw [indexOfAux_cons_self]

theorem c7_chunkEnd0 : chunkEnd c7text 80000 0 = 80071 := by
  unfold chunkEnd
  rw [if_pos (by rw [c7text_length]; norm_num)]
  simp only [Nat.zero_add]
  rw [show (80000 : Nat) - 100 = 79900 from by norm_num, c7_indexOf]
  dsimp only
  rw [if_pos (by norm_num : (80070 : Nat) - 80000 < 100)]

theorem c7_chunkEnd1 : chunkEnd c7text 80000 80071 = 160071 := by
  unfold chunkEnd
  rw [if_neg (by rw [c7text_length]; norm_num)]

theorem c7chunk0_val : c7chunk0 = List.replicate 80070 'a' ++ ['.'] := by
  unfold c7chunk0 sliceJS c7text
  rw [List.drop_zero, List.take_append_eq_append_take, List.take_replicate,
    List.length_replicate]
  norm_num

theorem c7_drop80071 : c7text.drop 80071 = List.replicate 79 'a' := by
  unfold c7text
  rw [List.drop_append_eq_append_drop, List.drop_replicate, List.length_replicate]
  norm_num

theorem c7chunk1_val : c7chunk1 = List.replicate 79 'a' := by
  unfold c7chunk1 sliceJS
  rw [List.take_of_length_le (by rw [c7text_length])]
  exact c7_drop80071

theorem c7_sliceTail : sliceJS c7text 80071 160071 = List.replicate 79 'a' := by
  unfold sliceJS
  rw [List.take_of_length_le (by rw [c7text_length]; norm_num)]
  exact c7_drop80071

theorem splitFuel_step {text : Str} {c f s : Nat} (hs : s < text.length) :
    splitFuel text c (f + 1) s =
      match splitFuel text c f (chunkEnd text c s) with
      | some rest => some (sliceJS text s (chunkEnd text c s) :: rest)
      | none => none := by
  conv_lhs => rw [splitFuel]
  rw [if_pos hs]

theorem splitFuel_last {text : Str} {c f s : Nat} (hs : ¬ s < text.length) :
    splitFuel text c f s = some [] := by
  cases f with
  | zero => rw [splitFuel, if_neg hs]
  | succ f => rw [splitFuel, if_neg hs]

theorem c7_split : splitTextIntoChunks c7text 80000 = some [c7chunk0, c7chunk1] := by
  have h0 : (0 : Nat) < c7text.length := by rw [c7text_length]; norm_num
  have h80071 : (80071 : Nat) < c7text.length := by rw [c7text_length]; norm_num
  have h160071 : ¬ (160071 : Nat) < c7text.length := by rw [c7text_length]; norm_num
  unfold splitTextIntoChunks
  rw [c7text_length]
  rw [show (80150 : Nat) + 1 = 80149 + 1 + 1 from by norm_num]
  rw [splitFuel_step h0, c7_chunkEnd0]
  rw [splitFuel_step h80071, c7_chunkEnd1]
  rw [splitFuel_last h160071]
  dsimp only
  rw [show sliceJS c7text 80071 160071 = c7chunk1 from
    c7_sliceTail.trans c7chunk1_val.symm]
  rfl

set_option maxRecDepth 10000 in
/-- C7 (confirmed): the 80,150-character document whose only relevant period
sits at offset 80,070 splits with the default chunk size 80,000 into exactly
the segments `[0, 80071)` and `[80071, 80150)`; with a stub client answering
`summary-N` for segment N the orchestrator returns the two summaries in
index order, and the detailed summary is those two joined by the fixed
`\n\n=== YENİ BÖLÜM ===\n\n` delimiter. -/
theorem c7_end_to_end (client : Client)
    (h0 : ∀ k, client (buildChunkPrompt c7chunk0 0 2) k =
      Except.ok ("summary-0".toList))
    (h1 : ∀ k, client (buildChunkPrompt c7chunk1 1 2) k =
      Except.ok ("summary-1".toList)) :
    splitTextIntoChunks c7text 80000 = some [c7chunk0, c7chunk1] ∧
    c7chunk0 = sliceJS c7text 0 80071 ∧ c7chunk1 = sliceJS c7text 80071 80150 ∧
    (processChunksSequentially client [c7chunk0, c7chunk1]).result =
      Except.ok ["summary-0".toList, "summary-1".toList] ∧
    joinSep sectionDelim ["summary-0".toList, "summary-1".toList] =
      ("summary-0\n\n=== YENİ BÖLÜM ===\n\nsummary-1").toList := by
  refine ⟨c7_split, rfl, rfl, ?_, by decide⟩
  have hl : ([c7chunk0, c7chunk1] : List Str).length = 2 := rfl
  simp only [processChunksSequentially, hl]
  have r0 : (generateSummaryForChunk client c7chunk0 0 2 0).result =
      Except.ok ("summary-0".toList) := by rw [genSum_ok (h0 0)]
  have r1 : (generateSummaryForChunk client c7chunk1 1 2 0).result =
      Except.ok ("summary-1".toList) := by rw [genSum_ok (h1 0)]
  rw [processAux_cons_ok r0]
  dsimp only
  rw [processAux_cons_ok r1]
  dsimp only
  rw [show processAux client 2 ([] : List Str) 2 = ⟨Except.ok [], [], []⟩ from rfl]
  rfl

theorem c7chunk0_length : c7chunk0.length = 80071 := by
  rw [c7chunk0_val, List.length_append, List.length_replicate]
  norm_num

theorem c7chunk1_length : c7chunk1.length = 79 := by
  rw [c7chunk1_val, List.length_replicate]

/-- The example's stub client: `summary-0` on segment 0's prompt,
`summary-1` on every other prompt. -/
def c7stub : Client := fun p _ =>
  if p = buildChunkPrompt c7chunk0 0 2 then Except.ok ("summary-0".toList)
  else Except.ok ("summary-1".toList)

set_option maxRecDepth 40000 in
theorem c7prompt_ne :
    buildChunkPrompt c7chunk1 1 2 ≠ buildChunkPrompt c7chunk0 0 2 := by
  intro h
  have hlen := congrArg List.length h
  unfold buildChunkPrompt at hlen
  simp only [List.length_append] at hlen
  rw [c7chunk0_length, c7chunk1_length] at hlen
  have e1 : (Nat.repr (1 + 1)).toList.length = 1 := rfl
  have e2 : (Nat.repr (0 + 1)).toList.length = 1 := rfl
  rw [e1, e2] at hlen
  omega

set_option maxRecDepth 10000 in
/-- C7 (witness): the end-to-end example run with the concrete stub client. -/
theorem c7_end_to_end_witness :
    splitTextIntoChunks c7text 80000 = some [c7chunk0, c7chunk1] ∧
    c7chunk0 = sliceJS c7text 0 80071 ∧ c7chunk1 = sliceJS c7text 80071 80150 ∧
    (processChunksSequentially c7stub [c7chunk0, c7chunk1]).result =
      Except.ok ["summary-0".toList, "summary-1".toList] ∧
    joinSep sectionDelim ["summary-0".toList, "summary-1".toList] =
      ("summary-0\n\n=== YENİ BÖLÜM ===\n\nsummary-1").toList := by
  refine c7_end_to_end c7stub ?_ ?_
  · intro k
    unfold c7stub
    rw [if_pos rfl]
  · intro k
    unfold c7stub
    rw [if_neg c7prompt_ne]
